import Mathlib

/-
  Verification development for the redis-timers dispatch engine.

  The repository package exposes `Handler`, `Router`, `Timers`, `consume_lock`
  and `timer_lock` (src/redis_timers/__init__.py); the modules
  redis_timers/timers.py, redis_timers/router.py, redis_timers/lock.py,
  redis_timers/handler.py and redis_timers/settings.py are not present in the
  source tree, so the definitions below are modelled from spec.md (sections
  3, 4, 6, 7) and exercised against the shapes the tests in src/tests rely on.

  Modelling conventions:
  - time is in whole UNIX epoch seconds (Nat); the spec uses floating-point
    seconds, but every claim only compares and adds times;
  - the shared store is explicit state: the timeline ordered set and the
    payloads hash are association lists keyed by the composite timer key,
    and held locks are the list of their store keys;
  - payload values, handler function objects and the context are opaque type
    parameters V, H, C; a schema is an encode/decode pair on V; running a
    handler is an oracle runH : H -> V -> C -> Bool giving success/failure;
  - one dispatch tick returns the new store, the list of handler invocations
    it performed (in order) and the list of log events it emitted.
-/

namespace RedisTimers

/-- Log levels the engine uses: DEBUG for lock contention, INFO for
per-timer dispatch errors. -/
inductive LogLevel where
  | debug
  | info
deriving DecidableEq, Repr

/-- One emitted log record: a level and the message text. -/
structure LogEvent where
  level : LogLevel
  msg : String
deriving DecidableEq, Repr

/-- Lookup in an association list keyed by strings (first match wins). -/
def alookup {α : Type} : List (String × α) → String → Option α
  | [], _ => none
  | (k, v) :: rest, key => if k = key then some v else alookup rest key

/-- Upsert into an association list: replace the first entry with the key in
place, or append a fresh entry.  Models ZADD on the timeline and HSET on the
payloads hash: both overwrite the value for an existing member. -/
def upsert {α : Type} : List (String × α) → String → α → List (String × α)
  | [], key, v => [(key, v)]
  | (k, w) :: rest, key, v =>
      if k = key then (key, v) :: rest else (k, w) :: upsert rest key v

/-- Remove every entry with the given key.  Models ZREM / HDEL. -/
def removeK {α : Type} (l : List (String × α)) (key : String) : List (String × α) :=
  l.filter (fun p => p.1 ≠ key)

/-- Modelled from the spec: a payload schema for payload type V, as the core
consumes it (section 6): serialization to JSON text at `set_timer` and
validation/decoding at dispatch.  `decode` returns `none` on a schema
validation failure (`PayloadDecodeError`). -/
structure Schema (V : Type) where
  encode : V → String
  decode : String → Option V

/-- Modelled from the spec: the immutable handler descriptor triple
`(topic, schema, handler-fn)` (section 3), with the schema type S and the
handler function object type H left abstract. -/
structure HandlerDesc (S : Type) (H : Type) where
  topic : String
  schema : S
  handler : H
deriving Repr

/-- Modelled from the spec: a Router carries an ordered, append-only list of
handler descriptors (section 3). -/
structure Router (S : Type) (H : Type) where
  handlers : List (HandlerDesc S H)

/-- Modelled from the spec: the registration decorator `Router.handler`
(section 4.2, missing router.py).  Given an optional `name`, a schema and the
handler function (plus the function's declared identifier `fnName`), it
appends a descriptor whose topic is `name` when supplied and the declared
identifier otherwise, and hands the function object back unchanged, as a
decorator does.  The returned pair is (router after registration, value the
decorator returns). -/
def Router.handler {S H : Type} (r : Router S H) (name : Option String)
    (schema : S) (fnName : String) (fn : H) : Router S H × H :=
  ({ handlers := r.handlers ++ [{ topic := name.getD fnName, schema := schema, handler := fn }] }, fn)

/-- Modelled from the spec: the shared store state the engine manipulates
(section 3 and 6): the timeline ordered set (composite key, activation epoch
seconds), the payloads hash (composite key, serialized payload) and the set
of currently held lock keys of the form "lock:{composite_key}". -/
structure Store where
  timeline : List (String × Nat)
  payloads : List (String × String)
  locks : List String

/-- The empty store. -/
def emptyStore : Store := ⟨[], [], []⟩

/-- Modelled from the spec: the dispatch engine state `Timers` (section 4.3):
the topic table mapping topic to handler descriptor, and the opaque context
passed unchanged to every handler invocation. -/
structure Timers (V : Type) (H : Type) (C : Type) where
  handlers_by_topics : List (String × HandlerDesc (Schema V) H)
  context : C

/-- Modelled from the spec: folding one router into the topic table; later
registrations on the same topic override earlier ones (section 4.3). -/
def include_router {V H C : Type} (e : Timers V H C) (r : Router (Schema V) H) :
    Timers V H C :=
  { e with
    handlers_by_topics :=
      r.handlers.foldl (fun t d => upsert t d.topic d) e.handlers_by_topics }

/-- Errors the engine surfaces to callers of set/remove (section 6):
`HandlerNotFound` carries the unknown topic; `LockBusy` is the non-blocking
lock acquisition failure. -/
inductive TimersError where
  | HandlerNotFound (topic : String)
  | LockBusy
deriving DecidableEq, Repr

/-- The composite timer key: exactly the topic, the two-character separator,
then the timer id (section 6). -/
def compositeKey (topic timer_id : String) : String :=
  topic ++ "--" ++ timer_id

/-- The store key of the lock guarding a composite key (section 4.1). -/
def lockKey (key : String) : String := "lock:" ++ key

/-- Splitting a character list at the first occurrence of the separator. -/
def splitSepChars : List Char → Option (List Char × List Char)
  | [] => none
  | '-' :: '-' :: rest => some ([], rest)
  | c :: rest =>
      match splitSepChars rest with
      | none => none
      | some (a, b) => some (c :: a, b)

/-- Modelled from the spec: parsing a composite key by splitting on the first
separator occurrence (section 4.3 step 2a).  A key with no separator is kept
whole as the topic with an empty timer id (the dispatch path only ever meets
keys written by set_timer, which always contain the separator). -/
def splitComposite (k : String) : String × String :=
  match splitSepChars k.data with
  | some (a, b) => (⟨a⟩, ⟨b⟩)
  | none => (k, "")

/-- Modelled from the spec: `set_timer` (section 4.3, missing timers.py).
Fails with HandlerNotFound when the topic is not in the topic table; then,
under the timer lock on the composite key (LockBusy when already held),
upserts the key into the timeline with score now + activation_period and the
encoded payload into the payloads hash, atomically.  The scoped lock is
released on exit, so the lock set is unchanged in the result. -/
def set_timer {V H C : Type} (e : Timers V H C) (s : Store) (topic timer_id : String)
    (p : V) (now activation_period : Nat) : Except TimersError Store :=
  match alookup e.handlers_by_topics topic with
  | none => .error (.HandlerNotFound topic)
  | some d =>
      let key := compositeKey topic timer_id
      if s.locks.contains (lockKey key) then .error .LockBusy
      else
        .ok { s with
              timeline := upsert s.timeline key (now + activation_period),
              payloads := upsert s.payloads key (d.schema.encode p) }

/-- Modelled from the spec: `remove_timer` (section 4.3, missing timers.py).
Fails with HandlerNotFound when the topic is not in the topic table; then,
under the timer lock, atomically removes the composite key from the timeline
and from the payloads hash; removing an absent key is a silent no-op. -/
def remove_timer {V H C : Type} (e : Timers V H C) (s : Store)
    (topic timer_id : String) : Except TimersError Store :=
  match alookup e.handlers_by_topics topic with
  | none => .error (.HandlerNotFound topic)
  | some _ =>
      let key := compositeKey topic timer_id
      if s.locks.contains (lockKey key) then .error .LockBusy
      else
        .ok { s with
              timeline := removeK s.timeline key,
              payloads := removeK s.payloads key }

/-- Timeline ordering used when reading the ordered set: ascending score,
ties broken by the member string (the store tie-break). -/
def timelineBefore (x y : String × Nat) : Bool :=
  decide (x.2 < y.2) || (x.2 == y.2 && !(decide (y.1 < x.1)))

/-- Insertion step of the timeline sort. -/
def insertByTime (x : String × Nat) : List (String × Nat) → List (String × Nat)
  | [] => [x]
  | y :: ys => if timelineBefore x y then x :: y :: ys else y :: insertByTime x ys

/-- Reading the timeline in order: insertion sort by ascending score. -/
def sortTimeline : List (String × Nat) → List (String × Nat)
  | [] => []
  | x :: xs => insertByTime x (sortTimeline xs)

/-- Modelled from the spec: `fetch_all_timers` (section 4.3): the timeline
keys in score order and a snapshot of the payloads hash. -/
def fetch_all_timers (s : Store) : List String × List (String × String) :=
  ((sortTimeline s.timeline).map Prod.fst, s.payloads)

/-- Modelled from the spec: the candidate read of a tick (section 4.3 step 1):
up to `limit` composite keys whose score is at most now, ascending. -/
def dueKeys (tl : List (String × Nat)) (now limit : Nat) : List String :=
  List.take limit ((sortTimeline (tl.filter (fun p => decide (p.2 ≤ now)))).map Prod.fst)

/-- One handler invocation performed by a tick: which composite key and topic
it was for, the handler function object, the decoded payload it received and
the context it received. -/
structure Invocation (V : Type) (H : Type) (C : Type) where
  key : String
  topic : String
  handler : H
  payload : V
  context : C

/-- Modelled from the spec: one per-key dispatch unit of a tick (section 4.3
step 2).  Parses the key, looks up the handler (absent: log INFO, drop both
entries), takes the consume lock (busy: log DEBUG, leave the timer), fetches
the payload (absent: log INFO, drop the timeline entry; invalid: log INFO,
drop both), then invokes the handler; on success both entries are removed, on
failure the timer is left for a retry.  The consume lock is released on every
exit path, so the lock set is unchanged in the result. -/
def processKey {V H C : Type} (e : Timers V H C) (runH : H → V → C → Bool)
    (s : Store) (key : String) : Store × Option (Invocation V H C) × List LogEvent :=
  let topic := (splitComposite key).1
  match alookup e.handlers_by_topics topic with
  | none =>
      ({ s with timeline := removeK s.timeline key, payloads := removeK s.payloads key },
       none, [⟨.info, "Handler is not found"⟩])
  | some d =>
      if s.locks.contains (lockKey key) then
        (s, none, [⟨.debug, "Timer is locked"⟩])
      else
        match alookup s.payloads key with
        | none =>
            ({ s with timeline := removeK s.timeline key },
             none, [⟨.info, "No payload found"⟩])
        | some raw =>
            match d.schema.decode raw with
            | none =>
                ({ s with timeline := removeK s.timeline key, payloads := removeK s.payloads key },
                 none, [⟨.info, "Failed to parse payload"⟩])
            | some v =>
                if runH d.handler v e.context then
                  ({ s with timeline := removeK s.timeline key, payloads := removeK s.payloads key },
                   some ⟨key, topic, d.handler, v, e.context⟩, [])
                else
                  (s, some ⟨key, topic, d.handler, v, e.context⟩, [])

/-- Sequenced processing of the candidate keys of one tick, accumulating the
invocations and log events in order. -/
def runKeys {V H C : Type} (e : Timers V H C) (runH : H → V → C → Bool)
    (s : Store) : List String → Store × List (Invocation V H C) × List LogEvent
  | [] => (s, [], [])
  | k :: ks =>
      let r1 := processKey e runH s k
      let r2 := runKeys e runH r1.1 ks
      (r2.1, r1.2.1.toList ++ r2.2.1, r1.2.2 ++ r2.2.2)

/-- Modelled from the spec: the dispatch tick `handle_ready_timers`
(section 4.3, missing timers.py).  With a zero concurrent-processing limit it
returns immediately; otherwise it reads up to `limit` due keys in ascending
score order and processes each.  Concurrency inside one tick is modelled as
the sequential order; each candidate key is processed exactly once. -/
def handle_ready_timers {V H C : Type} (e : Timers V H C) (runH : H → V → C → Bool)
    (s : Store) (now limit : Nat) : Store × List (Invocation V H C) × List LogEvent :=
  if limit = 0 then (s, [], [])
  else runKeys e runH s (dueKeys s.timeline now limit)

/-! Concrete instantiation used by the witnesses. -/

/-- A concrete schema over Nat payloads for witnesses. -/
def schemaW : Schema Nat := ⟨fun _ => "p", fun s => if s = "p" then some 0 else none⟩

/-- A concrete handler descriptor for witnesses. -/
def descW : HandlerDesc (Schema Nat) Unit := ⟨"t", schemaW, ()⟩

/-- A concrete engine: one registered topic "t", context 7. -/
def eW : Timers Nat Unit Nat := ⟨[("t", descW)], 7⟩

/-- A concrete handler runner that always succeeds. -/
def runHW : Unit → Nat → Nat → Bool := fun _ _ _ => true

/-! Helper lemmas about the store primitives. -/

theorem alookup_upsert_self {α : Type} (l : List (String × α)) (k : String) (v : α) :
    alookup (upsert l k v) k = some v := by
  induction l with
  | nil => simp [upsert, alookup]
  | cons p rest ih =>
      obtain ⟨k', w⟩ := p
      by_cases h : k' = k
      · simp [upsert, h, alookup]
      · simp [upsert, h, alookup, ih]

theorem alookup_removeK_self {α : Type} (l : List (String × α)) (k : String) :
    alookup (removeK l k) k = none := by
  induction l with
  | nil => simp [removeK, alookup]
  | cons p rest ih =>
      obtain ⟨k', w⟩ := p
      by_cases h : k' = k
      · simpa [removeK, h] using ih
      · simpa [removeK, h, alookup] using ih

theorem alookup_removeK_other {α : Type} (l : List (String × α)) (k k' : String)
    (h : k' ≠ k) : alookup (removeK l k) k' = alookup l k' := by
  induction l with
  | nil => simp [removeK]
  | cons p rest ih =>
      obtain ⟨k₀, w⟩ := p
      have h3 : ¬ k = k' := fun hh => h hh.symm
      by_cases h0 : k₀ = k
      · simpa [removeK, alookup, h0, h3] using ih
      · by_cases h1 : k₀ = k'
        · simp [removeK, h0, alookup, h1, h]
        · simpa [removeK, h0, alookup, h1] using ih

theorem removeK_eq_self {α : Type} (l : List (String × α)) (k : String)
    (h : alookup l k = none) : removeK l k = l := by
  induction l with
  | nil => simp [removeK]
  | cons p rest ih =>
      obtain ⟨k', w⟩ := p
      by_cases h0 : k' = k
      · simp [alookup, h0] at h
      · simp [alookup, h0] at h
        simp [removeK, h0] at ih ⊢
        exact ih h

theorem alookup_mem {α : Type} (l : List (String × α)) (k : String) (v : α)
    (h : alookup l k = some v) : (k, v) ∈ l := by
  induction l with
  | nil => simp [alookup] at h
  | cons p rest ih =>
      obtain ⟨k', w⟩ := p
      by_cases h0 : k' = k
      · subst h0
        simp [alookup] at h
        simp [h]
      · simp [alookup, h0] at h
        simp [ih h]

theorem mem_insertByTime (x y : String × Nat) (l : List (String × Nat)) :
    y ∈ insertByTime x l ↔ y = x ∨ y ∈ l := by
  induction l with
  | nil => simp [insertByTime]
  | cons z zs ih =>
      by_cases h : timelineBefore x z
      · simp [insertByTime, h]
      · simp [insertByTime, h, ih]
        tauto

theorem mem_sortTimeline (y : String × Nat) (l : List (String × Nat)) :
    y ∈ sortTimeline l ↔ y ∈ l := by
  induction l with
  | nil => simp [sortTimeline]
  | cons x xs ih => simp [sortTimeline, mem_insertByTime, ih]

theorem not_mem_map_fst_removeK {α : Type} (l : List (String × α)) (k : String) :
    k ∉ (removeK l k).map Prod.fst := by
  intro h
  obtain ⟨p, hp, hfst⟩ := List.mem_map.mp h
  have := List.mem_filter.mp hp
  simp [hfst] at this

theorem dueKeys_mem (tl : List (String × Nat)) (now limit : Nat) (k : String)
    (h : k ∈ dueKeys tl now limit) : ∃ sc, (k, sc) ∈ tl ∧ sc ≤ now := by
  have h1 := List.mem_of_mem_take h
  obtain ⟨p, hp, hfst⟩ := List.mem_map.mp h1
  have h2 := (mem_sortTimeline p _).mp hp
  have h3 := List.mem_filter.mp h2
  refine ⟨p.2, ?_, by simpa using h3.2⟩
  have : p = (k, p.2) := by rw [← hfst]
  rw [← this]
  exact h3.1

theorem not_mem_fetch_removeK (l : List (String × Nat)) (k : String) :
    k ∉ (sortTimeline (removeK l k)).map Prod.fst := by
  intro h
  obtain ⟨p, hp, hfst⟩ := List.mem_map.mp h
  have h2 := (mem_sortTimeline p _).mp hp
  have h3 := List.mem_filter.mp h2
  simp [hfst] at h3

theorem processKey_frame {V H C : Type} (e : Timers V H C) (runH : H → V → C → Bool)
    (s : Store) (key k : String) (h : k ≠ key) :
    alookup (processKey e runH s key).1.timeline k = alookup s.timeline k ∧
    alookup (processKey e runH s key).1.payloads k = alookup s.payloads k ∧
    ∀ inv ∈ (processKey e runH s key).2.1.toList, inv.key = key := by
  cases halo : alookup e.handlers_by_topics (splitComposite key).1 with
  | none => simp [processKey, halo, alookup_removeK_other _ _ _ h]
  | some d =>
      by_cases hl : lockKey key ∈ s.locks
      · simp [processKey, halo, hl]
      · cases hp : alookup s.payloads key with
        | none => simp [processKey, halo, hl, hp, alookup_removeK_other _ _ _ h]
        | some raw =>
            cases hd : d.schema.decode raw with
            | none => simp [processKey, halo, hl, hp, hd, alookup_removeK_other _ _ _ h]
            | some v =>
                by_cases hr : runH d.handler v e.context
                · simp [processKey, halo, hl, hp, hd, hr, alookup_removeK_other _ _ _ h]
                · simp [processKey, halo, hl, hp, hd, hr]

theorem runKeys_frame {V H C : Type} (e : Timers V H C) (runH : H → V → C → Bool)
    (k : String) : ∀ (keys : List String) (s : Store), k ∉ keys →
    alookup (runKeys e runH s keys).1.timeline k = alookup s.timeline k ∧
    alookup (runKeys e runH s keys).1.payloads k = alookup s.payloads k ∧
    ∀ inv ∈ (runKeys e runH s keys).2.1, inv.key ∈ keys := by
  intro keys
  induction keys with
  | nil =>
      intro s _
      simp [runKeys]
  | cons key ks ih =>
      intro s hmem
      have hne : k ≠ key := fun hh => hmem (hh ▸ List.mem_cons_self key ks)
      have hks : k ∉ ks := fun hh => hmem (List.mem_cons_of_mem _ hh)
      have hpf := processKey_frame e runH s key k hne
      have hrec := ih (processKey e runH s key).1 hks
      refine ⟨?_, ?_, ?_⟩
      · simp only [runKeys]
        rw [hrec.1, hpf.1]
      · simp only [runKeys]
        rw [hrec.2.1, hpf.2.1]
      · simp only [runKeys]
        intro inv hinv
        rcases List.mem_append.mp hinv with h1 | h2
        · rw [hpf.2.2 inv h1]
          exact List.mem_cons_self key ks
        · exact List.mem_cons_of_mem _ (hrec.2.2 inv h2)

/-- One tick on a store whose timeline is a single due entry processes
exactly that key. -/
theorem tick_singleton {V H C : Type} (e : Timers V H C) (runH : H → V → C → Bool)
    (key : String) (t now limit : Nat) (pays : List (String × String))
    (locks : List String) (ht : t ≤ now) :
    handle_ready_timers e runH ⟨[(key, t)], pays, locks⟩ now (limit + 1)
      = ((processKey e runH ⟨[(key, t)], pays, locks⟩ key).1,
         (processKey e runH ⟨[(key, t)], pays, locks⟩ key).2.1.toList,
         (processKey e runH ⟨[(key, t)], pays, locks⟩ key).2.2) := by
  have hdk : dueKeys [(key, t)] now (limit + 1) = [key] := by
    simp [dueKeys, sortTimeline, insertByTime, ht]
  unfold handle_ready_timers
  rw [if_neg (Nat.succ_ne_zero limit)]
  show runKeys e runH _ (dueKeys [(key, t)] now (limit + 1)) = _
  rw [hdk]
  simp [runKeys]

/-! Claim theorems. -/

/-- C6: a timer whose activation time is strictly in the future at the start
of a tick is never selected by handle_ready_timers: its timeline entry and
its payload entry are untouched and no handler invocation is made for its
key. -/
theorem future_timer_untouched {V H C : Type} (e : Timers V H C)
    (runH : H → V → C → Bool) (s : Store) (now limit : Nat) (k : String)
    (hfut : ∀ sc, (k, sc) ∈ s.timeline → now < sc) :
    alookup (handle_ready_timers e runH s now limit).1.timeline k = alookup s.timeline k ∧
    alookup (handle_ready_timers e runH s now limit).1.payloads k = alookup s.payloads k ∧
    ∀ inv ∈ (handle_ready_timers e runH s now limit).2.1, inv.key ≠ k := by
  by_cases hl : limit = 0
  · simp [handle_ready_timers, hl]
  · have hnot : k ∉ dueKeys s.timeline now limit := by
      intro hmem
      obtain ⟨sc, hsc, hle⟩ := dueKeys_mem _ _ _ _ hmem
      exact absurd hle (Nat.not_le.mpr (hfut sc hsc))
    have hrw : handle_ready_timers e runH s now limit
        = runKeys e runH s (dueKeys s.timeline now limit) := by
      unfold handle_ready_timers
      exact if_neg hl
    have hf := runKeys_frame e runH k (dueKeys s.timeline now limit) s hnot
    rw [hrw]
    refine ⟨hf.1, hf.2.1, ?_⟩
    intro inv hinv hkey
    exact hnot (hkey ▸ hf.2.2 inv hinv)

/-- Witness for C6: a timer due at time 10 survives a tick at time 5. -/
theorem future_timer_untouched_witness :
    alookup (handle_ready_timers eW runHW ⟨[("t--i", 10)], [("t--i", "p")], []⟩ 5 3).1.timeline "t--i"
      = alookup ([("t--i", 10)]) "t--i" ∧
    alookup (handle_ready_timers eW runHW ⟨[("t--i", 10)], [("t--i", "p")], []⟩ 5 3).1.payloads "t--i"
      = alookup ([("t--i", "p")]) "t--i" ∧
    ∀ inv ∈ (handle_ready_timers eW runHW ⟨[("t--i", 10)], [("t--i", "p")], []⟩ 5 3).2.1,
      inv.key ≠ "t--i" :=
  future_timer_untouched eW runHW ⟨[("t--i", 10)], [("t--i", "p")], []⟩ 5 3 "t--i"
    (by intro sc hsc; simp [Prod.ext_iff] at hsc; omega)

/-- C2: after a successful set_timer the composite key is in the fetched
timeline and its payloads entry equals the encoding of the payload; a
subsequent remove_timer leaves the composite key absent from both
structures; and remove_timer on a registered topic whose composite key holds
no stored timer is a silent no-op. -/
theorem set_fetch_remove_roundtrip {V H C : Type} (e : Timers V H C) (s : Store)
    (topic timer_id : String) (p : V) (d : HandlerDesc (Schema V) H)
    (now period : Nat)
    (halo : alookup e.handlers_by_topics topic = some d)
    (hlock : s.locks.contains (lockKey (compositeKey topic timer_id)) = false) :
    (∃ s1, set_timer e s topic timer_id p now period = .ok s1 ∧
      compositeKey topic timer_id ∈ (fetch_all_timers s1).1 ∧
      alookup (fetch_all_timers s1).2 (compositeKey topic timer_id)
        = some (d.schema.encode p) ∧
      ∃ s2, remove_timer e s1 topic timer_id = .ok s2 ∧
        compositeKey topic timer_id ∉ (fetch_all_timers s2).1 ∧
        alookup (fetch_all_timers s2).2 (compositeKey topic timer_id) = none) ∧
    (alookup s.timeline (compositeKey topic timer_id) = none →
     alookup s.payloads (compositeKey topic timer_id) = none →
     remove_timer e s topic timer_id = .ok s) := by
  have hlock' : lockKey (compositeKey topic timer_id) ∉ s.locks := by
    simpa using hlock
  constructor
  · refine ⟨{ s with
        timeline := upsert s.timeline (compositeKey topic timer_id) (now + period),
        payloads := upsert s.payloads (compositeKey topic timer_id) (d.schema.encode p) },
      ?_, ?_, ?_, ?_⟩
    · simp [set_timer, halo, hlock']
    · have hmem := alookup_mem _ _ _
        (alookup_upsert_self s.timeline (compositeKey topic timer_id) (now + period))
      exact List.mem_map.mpr ⟨_, (mem_sortTimeline _ _).mpr hmem, rfl⟩
    · exact alookup_upsert_self _ _ _
    · refine ⟨{ s with
          timeline := removeK (upsert s.timeline (compositeKey topic timer_id) (now + period))
            (compositeKey topic timer_id),
          payloads := removeK (upsert s.payloads (compositeKey topic timer_id) (d.schema.encode p))
            (compositeKey topic timer_id) },
        ?_, ?_, ?_⟩
      · simp [remove_timer, halo, hlock']
      · exact not_mem_fetch_removeK _ _
      · exact alookup_removeK_self _ _
  · intro h1 h2
    simp [remove_timer, halo, hlock', removeK_eq_self _ _ h1, removeK_eq_self _ _ h2]

/-- Witness for C2 at the concrete registered topic "t". -/
theorem set_fetch_remove_roundtrip_witness :
    (∃ s1, set_timer eW emptyStore "t" "i" 0 5 1 = .ok s1 ∧
      compositeKey "t" "i" ∈ (fetch_all_timers s1).1 ∧
      alookup (fetch_all_timers s1).2 (compositeKey "t" "i")
        = some (descW.schema.encode 0) ∧
      ∃ s2, remove_timer eW s1 "t" "i" = .ok s2 ∧
        compositeKey "t" "i" ∉ (fetch_all_timers s2).1 ∧
        alookup (fetch_all_timers s2).2 (compositeKey "t" "i") = none) ∧
    (alookup emptyStore.timeline (compositeKey "t" "i") = none →
     alookup emptyStore.payloads (compositeKey "t" "i") = none →
     remove_timer eW emptyStore "t" "i" = .ok emptyStore) :=
  set_fetch_remove_roundtrip eW emptyStore "t" "i" 0 descW 5 1 rfl rfl

/-- C3: for every topic absent from the topic table, set_timer and
remove_timer fail with HandlerNotFound carrying the topic name, for every
timer id, payload and period. -/
theorem unknown_topic_rejected {V H C : Type} (e : Timers V H C) (s : Store)
    (topic timer_id : String) (p : V) (now period : Nat)
    (h : alookup e.handlers_by_topics topic = none) :
    set_timer e s topic timer_id p now period = .error (.HandlerNotFound topic) ∧
    remove_timer e s topic timer_id = .error (.HandlerNotFound topic) := by
  constructor <;> simp [set_timer, remove_timer, h]

/-- C8: with a zero concurrent-processing limit, the dispatch tick is a
complete no-op on every store: the store is returned unchanged and no handler
invocation and no log event is produced. -/
theorem zero_limit_noop {V H C : Type} (e : Timers V H C) (runH : H → V → C → Bool)
    (s : Store) (now : Nat) :
    handle_ready_timers e runH s now 0 = (s, [], []) := by
  simp [handle_ready_timers]

/-- C10: the registration decorator hands back the decorated function object
itself unchanged, and appends a descriptor whose handler field is that same
function object, whose schema is the one given, and whose topic is the given
name, or the declared function identifier when no name is supplied. -/
theorem router_handler_returns_fn {S H : Type} (r : Router S H) (name : Option String)
    (schema : S) (fnName : String) (fn : H) :
    (Router.handler r name schema fnName fn).2 = fn ∧
    (Router.handler r name schema fnName fn).1.handlers =
      r.handlers ++ [{ topic := name.getD fnName, schema := schema, handler := fn }] :=
  ⟨rfl, rfl⟩

/-- C1: scheduling a timer with a zero activation period on a registered
topic and then running one dispatch tick invokes the handler of the topic
exactly once, with the decoded payload equal to the one given to set_timer
and with the engine context, and afterwards the timeline and the payloads
map hold no entry at all, in particular none for the composite key. -/
theorem immediate_dispatch {V H C : Type} (e : Timers V H C)
    (runH : H → V → C → Bool) (topic timer_id : String) (p : V)
    (d : HandlerDesc (Schema V) H) (now now2 limit : Nat)
    (halo : alookup e.handlers_by_topics topic = some d)
    (hsplit : splitComposite (compositeKey topic timer_id) = (topic, timer_id))
    (hround : d.schema.decode (d.schema.encode p) = some p)
    (hrun : runH d.handler p e.context = true)
    (hnow : now ≤ now2) :
    set_timer e emptyStore topic timer_id p now 0
      = .ok ⟨[(compositeKey topic timer_id, now)],
             [(compositeKey topic timer_id, d.schema.encode p)], []⟩ ∧
    handle_ready_timers e runH
        ⟨[(compositeKey topic timer_id, now)],
         [(compositeKey topic timer_id, d.schema.encode p)], []⟩ now2 (limit + 1)
      = (⟨[], [], []⟩,
         [⟨compositeKey topic timer_id, topic, d.handler, p, e.context⟩], []) := by
  constructor
  · simp [set_timer, emptyStore, upsert, halo]
  · rw [tick_singleton e runH _ now now2 limit _ _ hnow]
    simp [processKey, hsplit, halo, lockKey, alookup, hround, hrun, removeK]

/-- Witness for C1 at the concrete registered topic "t". -/
theorem immediate_dispatch_witness :
    set_timer eW emptyStore "t" "i" 0 5 0
      = .ok ⟨[(compositeKey "t" "i", 5)], [(compositeKey "t" "i", descW.schema.encode 0)], []⟩ ∧
    handle_ready_timers eW runHW
        ⟨[(compositeKey "t" "i", 5)], [(compositeKey "t" "i", descW.schema.encode 0)], []⟩ 5 1
      = (⟨[], [], []⟩, [⟨compositeKey "t" "i", "t", descW.handler, 0, eW.context⟩], []) :=
  immediate_dispatch eW runHW "t" "i" 0 descW 5 5 0 rfl (by decide) rfl rfl (by decide)

/-- C4: the second of two set_timer calls on the same composite key replaces
both the score and the payload, so the next dispatch observes the second
score and payload, with exactly one handler invocation for the key. -/
theorem duplicate_timer_replaced {V H C : Type} (e : Timers V H C)
    (runH : H → V → C → Bool) (topic timer_id : String) (p1 p2 : V)
    (d : HandlerDesc (Schema V) H) (now1 per1 now2 now3 limit : Nat)
    (halo : alookup e.handlers_by_topics topic = some d)
    (hsplit : splitComposite (compositeKey topic timer_id) = (topic, timer_id))
    (hround : d.schema.decode (d.schema.encode p2) = some p2)
    (hrun : runH d.handler p2 e.context = true)
    (hnow : now2 ≤ now3) :
    set_timer e emptyStore topic timer_id p1 now1 per1
      = .ok ⟨[(compositeKey topic timer_id, now1 + per1)],
             [(compositeKey topic timer_id, d.schema.encode p1)], []⟩ ∧
    set_timer e ⟨[(compositeKey topic timer_id, now1 + per1)],
                 [(compositeKey topic timer_id, d.schema.encode p1)], []⟩
        topic timer_id p2 now2 0
      = .ok ⟨[(compositeKey topic timer_id, now2)],
             [(compositeKey topic timer_id, d.schema.encode p2)], []⟩ ∧
    handle_ready_timers e runH
        ⟨[(compositeKey topic timer_id, now2)],
         [(compositeKey topic timer_id, d.schema.encode p2)], []⟩ now3 (limit + 1)
      = (⟨[], [], []⟩,
         [⟨compositeKey topic timer_id, topic, d.handler, p2, e.context⟩], []) := by
  refine ⟨?_, ?_, ?_⟩
  · simp [set_timer, emptyStore, upsert, halo]
  · simp [set_timer, upsert, halo]
  · rw [tick_singleton e runH _ now2 now3 limit _ _ hnow]
    simp [processKey, hsplit, halo, lockKey, alookup, hround, hrun, removeK]

/-- Witness for C4 at the concrete registered topic "t". -/
theorem duplicate_timer_replaced_witness :
    set_timer eW emptyStore "t" "i" 1 2 10
      = .ok ⟨[(compositeKey "t" "i", 12)], [(compositeKey "t" "i", descW.schema.encode 1)], []⟩ ∧
    set_timer eW ⟨[(compositeKey "t" "i", 12)], [(compositeKey "t" "i", descW.schema.encode 1)], []⟩
        "t" "i" 0 4 0
      = .ok ⟨[(compositeKey "t" "i", 4)], [(compositeKey "t" "i", descW.schema.encode 0)], []⟩ ∧
    handle_ready_timers eW runHW
        ⟨[(compositeKey "t" "i", 4)], [(compositeKey "t" "i", descW.schema.encode 0)], []⟩ 4 1
      = (⟨[], [], []⟩, [⟨compositeKey "t" "i", "t", descW.handler, 0, eW.context⟩], []) :=
  duplicate_timer_replaced eW runHW "t" "i" 1 0 descW 2 10 4 4 0 rfl (by decide) rfl rfl
    (by decide)

/-- C5: when the consume lock of a due timer is already held by another
party, the tick invokes no handler, leaves the timer in both the timeline
and the payloads map, and logs "Timer is locked" at DEBUG. -/
theorem locked_timer_skipped {V H C : Type} (e : Timers V H C)
    (runH : H → V → C → Bool) (topic timer_id : String) (t now limit : Nat)
    (pay : String) (locks : List String) (d : HandlerDesc (Schema V) H)
    (halo : alookup e.handlers_by_topics topic = some d)
    (hsplit : splitComposite (compositeKey topic timer_id) = (topic, timer_id))
    (ht : t ≤ now)
    (hlock : lockKey (compositeKey topic timer_id) ∈ locks) :
    handle_ready_timers e runH
        ⟨[(compositeKey topic timer_id, t)], [(compositeKey topic timer_id, pay)], locks⟩
        now (limit + 1)
      = (⟨[(compositeKey topic timer_id, t)], [(compositeKey topic timer_id, pay)], locks⟩,
         [], [⟨.debug, "Timer is locked"⟩]) := by
  rw [tick_singleton e runH _ t now limit _ _ ht]
  simp [processKey, hsplit, halo, hlock]

/-- Witness for C5 with the lock key held in the store. -/
theorem locked_timer_skipped_witness :
    handle_ready_timers eW runHW
        ⟨[(compositeKey "t" "i", 3)], [(compositeKey "t" "i", "p")], [lockKey (compositeKey "t" "i")]⟩
        5 1
      = (⟨[(compositeKey "t" "i", 3)], [(compositeKey "t" "i", "p")], [lockKey (compositeKey "t" "i")]⟩,
         [], [⟨.debug, "Timer is locked"⟩]) :=
  locked_timer_skipped eW runHW "t" "i" 3 5 0 "p" [lockKey (compositeKey "t" "i")] descW
    rfl (by decide) (by decide) (by simp)

/-- C7: for a due key whose payload is absent the tick logs "No payload
found" at INFO and removes the timeline entry without invoking the handler;
for a payload present but failing schema validation the tick logs "Failed to
parse payload" at INFO and removes both entries without invoking the
handler. -/
theorem payload_missing_or_invalid {V H C : Type} (e : Timers V H C)
    (runH : H → V → C → Bool) (topic timer_id : String) (t now limit : Nat)
    (raw : String) (locks : List String) (d : HandlerDesc (Schema V) H)
    (halo : alookup e.handlers_by_topics topic = some d)
    (hsplit : splitComposite (compositeKey topic timer_id) = (topic, timer_id))
    (ht : t ≤ now)
    (hlock : lockKey (compositeKey topic timer_id) ∉ locks)
    (hdec : d.schema.decode raw = none) :
    handle_ready_timers e runH
        ⟨[(compositeKey topic timer_id, t)], [], locks⟩ now (limit + 1)
      = (⟨[], [], locks⟩, [], [⟨.info, "No payload found"⟩]) ∧
    handle_ready_timers e runH
        ⟨[(compositeKey topic timer_id, t)], [(compositeKey topic timer_id, raw)], locks⟩
        now (limit + 1)
      = (⟨[], [], locks⟩, [], [⟨.info, "Failed to parse payload"⟩]) := by
  constructor
  · rw [tick_singleton e runH _ t now limit _ _ ht]
    simp [processKey, hsplit, halo, hlock, alookup, removeK]
  · rw [tick_singleton e runH _ t now limit _ _ ht]
    simp [processKey, hsplit, halo, hlock, alookup, hdec, removeK]

/-- Witness for C7 with the undecodable payload text "bad". -/
theorem payload_missing_or_invalid_witness :
    handle_ready_timers eW runHW
        ⟨[(compositeKey "t" "i", 3)], [], []⟩ 5 1
      = (⟨[], [], []⟩, [], [⟨.info, "No payload found"⟩]) ∧
    handle_ready_timers eW runHW
        ⟨[(compositeKey "t" "i", 3)], [(compositeKey "t" "i", "bad")], []⟩ 5 1
      = (⟨[], [], []⟩, [], [⟨.info, "Failed to parse payload"⟩]) :=
  payload_missing_or_invalid eW runHW "t" "i" 3 5 0 "bad" [] descW rfl (by decide)
    (by decide) (by simp) rfl

/-- Witness for C3 at the concrete unknown topic "w". -/
theorem unknown_topic_rejected_witness :
    set_timer eW emptyStore "w" "i" 0 5 1 = .error (.HandlerNotFound "w") ∧
    remove_timer eW emptyStore "w" "i" = .error (.HandlerNotFound "w") :=
  unknown_topic_rejected eW emptyStore "w" "i" 0 5 1 (by rfl)

end RedisTimers
